import Mathlib

/-!
Verification development for the conversation-thread reconstruction and
memory-assembly engine (`src/twitter/utils/imageUtils.ts`).

The TypeScript source is shallowly embedded: external collaborators
(`scraper.getTweet`, `getConversationWithUser`, `getImageAsBase64`,
`process.env.TWITTER_USERNAME`) become fields of an explicit environment
`Env`; asynchronous fetches become total functions into `Option`;
JavaScript exceptions (the `toISOString` throw on an invalid date built
from an undefined `timeParsed`) become `Except Unit`; the unbounded
`while` loop of the parent walk becomes a fuel-indexed recursion, with
"enough fuel" hypotheses standing in for termination of the loop.
-/

/-- The `QuoteContext` interface of the source (sender, text, timestamp,
photos of the quoted message). -/
structure QuoteContext where
  sender : String
  text : String
  timestamp : String
  photos : List String
deriving Repr, DecidableEq

/-- The slice of the external `Tweet` type (from `goat-x`) actually read by
the source: every field the code accesses with `?.`/`||`/`!` is optional.
`timeParsed` is a JavaScript `Date`, modelled by its epoch-milliseconds
value when defined. A photo is read only through its `url`, so photos are
modelled as their URL strings. -/
structure Tweet where
  id : Option String
  username : Option String
  text : Option String
  timeParsed : Option Nat
  inReplyToStatusId : Option String
  quotedStatusId : Option String
  photos : Option (List String)
deriving Repr, DecidableEq

/-- The plain record objects built by `getConversationThread` (lines
88-95 and 115-123 of the source). Parent messages carry no
`isFocusTweet` property in JavaScript; reading it yields `undefined`,
which is falsy, so they are modelled with `isFocusTweet := false`. -/
structure ThreadMessage where
  sender : String
  tweet_id : Option String
  text : String
  timestamp : String
  photos : List String
  quoteContext : Option QuoteContext
  isFocusTweet : Bool
deriving Repr, DecidableEq

/-- A `{ photoUrl, sender }` pair as accumulated by the `allPhotos`
reduce of `fetchAndFormatTweetMemory`. -/
structure PhotoRef where
  photoUrl : String
  sender : String
deriving Repr, DecidableEq

/-- The `focusTweet` component of the record returned by
`fetchAndFormatTweetMemory`. -/
structure FocusTweetInfo where
  sender : String
  text : String
  timestamp : String
  photos : List String
  quoteContext : Option QuoteContext
deriving Repr, DecidableEq

/-- The record returned by `fetchAndFormatTweetMemory` on success. -/
structure TweetMemoryResult where
  memory : String
  username : String
  text : String
  photos : List PhotoRef
  focusTweet : Option FocusTweetInfo
deriving Repr, DecidableEq

/-- The `{ media_type, data }` object returned by `getImageAsBase64`. -/
structure ImageData where
  media_type : String
  data : String
deriving Repr, DecidableEq

/-- One element of the `imageContents` list built by
`assembleTwitterInterface`. -/
structure ImageContent where
  sender : String
  media_type : String
  data : String
deriving Repr, DecidableEq

/-- The bundle returned by `assembleTwitterInterface`. -/
structure TwitterInterface where
  textContent : String
  imageContents : List ImageContent
deriving Repr, DecidableEq

/-- The external collaborators of the core, made explicit. A fetch that
fails (network error, not-found, deleted message) is `none`; the backing
data is fixed for the duration of one invocation, which models the
"unchanged backing data" premise of the spec. `twitterUsername` is
`process.env.TWITTER_USERNAME` (absent when the variable is unset). -/
structure Env where
  getTweet : String → Option Tweet
  getConversationWithUser : String → List ThreadMessage
  getImageAsBase64 : String → Option ImageData
  twitterUsername : Option String

/-- Models `Date.prototype.toISOString` on a valid date: an injective
rendering of the epoch-milliseconds value. The precise ISO glyphs are
irrelevant to every claim, so the rendering is the decimal numeral. -/
def dateToISOString (ms : Nat) : String := toString ms

/-- Models `new Date(t.timeParsed!).toISOString()`: when `timeParsed` is
`undefined`, `new Date(undefined)` is an Invalid Date and `toISOString`
throws a `RangeError`; otherwise it returns the ISO rendering. -/
def toISO : Option Nat → Except Unit String
  | none => Except.error ()
  | some ms => Except.ok (dateToISOString ms)

/-- Modelled from the spec: `formatTimestamp` (from
`utils/formatTimestamps.ts`) is repository code that is not under `src/`.
The spec only requires that each message is rendered as
`[timestamp] sender: text` with a deterministic timestamp rendering, so
the function is modelled as the identity on the timestamp string. -/
def formatTimestamp (ts : String) : String := ts

/-- The quote-resolution step shared by the parent mapping (lines 74-86)
and the focus tweet (lines 99-110): resolve `quotedStatusId` once; a
missing reference or an unresolvable quoted message yields `none`; a
resolved quoted message with an undefined `timeParsed` throws. -/
def resolveQuoteContext (env : Env) : Option String → Except Unit (Option QuoteContext)
  | none => Except.ok none
  | some qid =>
    match env.getTweet qid with
    | none => Except.ok none
    | some quotedTweet => do
      let ts ← toISO quotedTweet.timeParsed
      Except.ok (some
        { sender := quotedTweet.username.getD "Unknown User"
          text := quotedTweet.text.getD ""
          timestamp := ts
          photos := quotedTweet.photos.getD [] })

/-- Builds the per-node record of `getConversationThread` (quote context
first, then the node's own fields, as in the source). -/
def toThreadMessage (env : Env) (t : Tweet) (focus : Bool) : Except Unit ThreadMessage := do
  let quoteContext ← resolveQuoteContext env t.quotedStatusId
  let ts ← toISO t.timeParsed
  Except.ok
    { sender := t.username.getD "Unknown User"
      tweet_id := t.id
      text := t.text.getD ""
      timestamp := ts
      photos := t.photos.getD []
      quoteContext := quoteContext
      isFocusTweet := focus }

/-- The `while (currentTweet.inReplyToStatusId)` walk of lines 61-70,
collecting parent tweets oldest-first (`unshift`). The JavaScript loop is
unbounded; the embedding is indexed by fuel, and theorems assume enough
fuel for the chain at hand. A failed parent fetch breaks the loop,
keeping the parents already collected. -/
def collectParents (env : Env) : Nat → Tweet → List Tweet
  | 0, _ => []
  | fuel + 1, currentTweet =>
    match currentTweet.inReplyToStatusId with
    | none => []
    | some pid =>
      match env.getTweet pid with
      | none => []
      | some parentTweet => collectParents env fuel parentTweet ++ [parentTweet]

/-- The `Promise.all(parentTweets.map(...))` of lines 73-96: each parent
is mapped to its record; if any element throws, the whole mapping
rejects. -/
def mapNodes (env : Env) : List Tweet → Except Unit (List ThreadMessage)
  | [] => Except.ok []
  | t :: ts => do
    let m ← toThreadMessage env t false
    let ms ← mapNodes env ts
    Except.ok (m :: ms)

/-- The body of the `try` block of `getConversationThread` after the
focus tweet has been resolved: map the parents, then append the focus
record flagged `isFocusTweet`. -/
def threadResult (env : Env) (fuel : Nat) (focusTweet : Tweet) : Except Unit (List ThreadMessage) := do
  let conversation ← mapNodes env (collectParents env fuel focusTweet)
  let focusMsg ← toThreadMessage env focusTweet true
  Except.ok (conversation ++ [focusMsg])

/-- `getConversationThread` (lines 48-130): an unresolvable focus tweet
returns `[]`; any exception inside the `try` block (only the
`toISOString` throw in this model) is caught and returns `[]`. -/
def getConversationThread (env : Env) (fuel : Nat) (tweetId : String) : List ThreadMessage :=
  match env.getTweet tweetId with
  | none => []
  | some focusTweet =>
    match threadResult env fuel focusTweet with
    | Except.ok l => l
    | Except.error _ => []

/-- Models the JavaScript built-in `String.prototype.toLowerCase` used
at lines 142 and 149, as character-wise simple lowercasing (structural
recursion, so concrete instances evaluate in the kernel). -/
def strToLower (s : String) : String := String.mk (s.data.map Char.toLower)

/-- The `formatMessage` helper of `formatMemory` (lines 140-159):
`[timestamp] sender: text`, with the agent's own identity (sender
lower-cases to `agent`, or equals `process.env.TWITTER_USERNAME`)
displayed as `(YOU)`, followed by an indented quote line and an image
count when a quote context is present. -/
def formatMessage (tun : Option String) (msg : ThreadMessage) : String :=
  let formattedTimestamp := formatTimestamp msg.timestamp
  let senderDisplay :=
    if strToLower msg.sender == "agent" || some msg.sender == tun then "(YOU)" else msg.sender
  let messageText := "[" ++ formattedTimestamp ++ "] " ++ senderDisplay ++ ": " ++ msg.text
  match msg.quoteContext with
  | none => messageText
  | some qc =>
    let quoteSenderDisplay :=
      if strToLower qc.sender == "agent" || some qc.sender == tun then "(YOU)" else qc.sender
    let withQuote := messageText ++ "\n    📝 Quoting " ++ quoteSenderDisplay ++ ": " ++ qc.text
    if qc.photos.length > 0 then
      withQuote ++ "\n    🖼️ Quote tweet contains " ++ toString qc.photos.length ++ " image(s)"
    else withQuote

/-- The parent slot of `formatMemory` (line 162 and 167): the JavaScript
destructuring `[parentTweet, ...rest]` makes the FIRST element of the
thread the parent whenever the thread is non-empty. -/
def parentTweetSection (tun : Option String) (threadMessages : List ThreadMessage) : String :=
  match threadMessages.head? with
  | some parentTweet => "Parent Tweet:\n" ++ formatMessage tun parentTweet ++ "\n"
  | none => ""

/-- The replies-above slot of `formatMemory` (lines 164 and 170-172):
everything strictly between the first element and the last element of the
tail (`rest` after `rest.pop()`). -/
def repliesAboveSection (tun : Option String) (threadMessages : List ThreadMessage) : String :=
  let repliesAbove := threadMessages.tail.dropLast
  if repliesAbove.length > 0 then
    "Replies Above the Tweet You Are Replying To:\n"
      ++ String.intercalate "\n" (repliesAbove.map (formatMessage tun)) ++ "\n"
  else ""

/-- The focus slot of `formatMemory` (lines 163 and 175): `rest.pop()`,
the last element of the TAIL of the thread — `undefined` (hence an empty
section) whenever the thread has fewer than two elements. -/
def focusTweetSection (tun : Option String) (threadMessages : List ThreadMessage) : String :=
  match threadMessages.tail.getLast? with
  | some focusTweet => "The Tweet You Are Replying To:\n" ++ formatMessage tun focusTweet ++ "\n"
  | none => ""

/-- The history part of `formatMemory` (lines 181-184): one line per
history entry, or the literal placeholder when the joined history is the
empty string (JavaScript falsiness of `''`). -/
def historyMemory (tun : Option String) (historyMessages : List ThreadMessage) : String :=
  let formattedHistory := String.intercalate "\n" (historyMessages.map (formatMessage tun))
  if formattedHistory == "" then "No previous conversation history."
  else "Past Conversation History:\n\n" ++ formattedHistory

/-- `formatMemory` (lines 138-188): thread sections in fixed order
(parent, replies-above, focus), then the history section. -/
def formatMemory (tun : Option String) (threadMessages historyMessages : List ThreadMessage) : String :=
  "Current Tweet Thread:\n\n"
    ++ parentTweetSection tun threadMessages
    ++ repliesAboveSection tun threadMessages
    ++ focusTweetSection tun threadMessages
    ++ "\n\n" ++ historyMemory tun historyMessages

/-- JavaScript falsiness of an optional string: `undefined` and `''` are
falsy, as in the guard `!tweet?.username || !tweet?.text`. -/
def falsyOptStr : Option String → Bool
  | none => true
  | some s => s == ""

/-- One step of the `allPhotos` reduce of `fetchAndFormatTweetMemory`
(lines 229-249): skip the focus record entirely; otherwise append the
node's own photos tagged with its sender, then its quote-context photos
tagged with the quoted sender. -/
def photoStep (photos : List PhotoRef) (message : ThreadMessage) : List PhotoRef :=
  if message.isFocusTweet then photos
  else
    let withOwn := photos ++ message.photos.map (fun u => { photoUrl := u, sender := message.sender })
    match message.quoteContext with
    | some qc => withOwn ++ qc.photos.map (fun u => { photoUrl := u, sender := qc.sender })
    | none => withOwn

/-- `fetchAndFormatTweetMemory` (lines 195-277): `none` when the focus
tweet cannot be fetched or its `username`/`text` is falsy; otherwise the
formatted memory, the thread-wide photo list (focus excluded, no
deduplication), and the focus record found by its `isFocusTweet` flag. -/
def fetchAndFormatTweetMemory (env : Env) (fuel : Nat) (tweetId : String) : Option TweetMemoryResult :=
  match env.getTweet tweetId with
  | none => none
  | some tweet =>
    if falsyOptStr tweet.username || falsyOptStr tweet.text then none
    else
      let conversationWithUser := env.getConversationWithUser (tweet.username.getD "")
      let conversationThread := getConversationThread env fuel tweetId
      let memory := formatMemory env.twitterUsername conversationThread conversationWithUser
      let allPhotos := conversationThread.foldl photoStep []
      let focusTweet := conversationThread.find? (fun m => m.isFocusTweet)
      some
        { memory := memory
          username := tweet.username.getD ""
          text := tweet.text.getD ""
          photos := allPhotos
          focusTweet := focusTweet.map (fun ft =>
            { sender := ft.sender
              text := ft.text
              timestamp := formatTimestamp ft.timestamp
              photos := ft.photos
              quoteContext := ft.quoteContext }) }

/-- One iteration of the image loops of `assembleTwitterInterface`
(lines 313-324, 329-340, 346-357 — all three share this body): skip a
URL already processed; otherwise fetch it, and only on success push the
encoded image (tagged with the sender chosen by the loop) and mark the
URL processed. -/
def processPhotoStep (env : Env) (st : List String × List ImageContent)
    (item : String × String) : List String × List ImageContent :=
  if st.1.contains item.1 then st
  else
    match env.getImageAsBase64 item.1 with
    | some d => (st.1 ++ [item.1], st.2 ++ [{ sender := item.2, media_type := d.media_type, data := d.data }])
    | none => st

/-- One of the three `for ... of` image loops, as a fold of
`processPhotoStep` over its `(photoUrl, sender)` items. -/
def processPhotos (env : Env) (st : List String × List ImageContent)
    (items : List (String × String)) : List String × List ImageContent :=
  items.foldl (processPhotoStep env) st

/-- The items of the first loop (lines 313-324): the focus tweet's own
photos, tagged with the focus sender. -/
def focusOwnItems (ft : FocusTweetInfo) : List (String × String) :=
  ft.photos.map (fun u => (u, ft.sender))

/-- The items of the second loop (lines 329-340): the focus tweet's
quote-context photos, tagged `quoteContext.sender || 'Unknown User'`. -/
def focusQuoteItems (ft : FocusTweetInfo) : List (String × String) :=
  match ft.quoteContext with
  | some qc => qc.photos.map (fun u => (u, if qc.sender == "" then "Unknown User" else qc.sender))
  | none => []

/-- The items of the third loop (lines 346-357): the thread-wide photo
list collected by `fetchAndFormatTweetMemory` (focus excluded), each
already paired with its sender. -/
def threadItems (r : TweetMemoryResult) : List (String × String) :=
  r.photos.map (fun p => (p.photoUrl, p.sender))

/-- The full image-processing order of `assembleTwitterInterface`: the
focus tweet's own photos first, then its quote photos, then the rest of
the thread oldest-first. -/
def imageItems (r : TweetMemoryResult) : List (String × String) :=
  (match r.focusTweet with
   | some ft => focusOwnItems ft ++ focusQuoteItems ft
   | none => []) ++ threadItems r

/-- The image-processing phase of `assembleTwitterInterface`
(lines 304-359): the three loops run in order on a shared
`processedPhotoUrls` set and a shared `imageContents` list, both starting
empty; nothing runs when the memory fetch returned `null`. -/
def assembleImages (env : Env) : Option TweetMemoryResult → List String × List ImageContent
  | none => ([], [])
  | some r =>
    let st1 :=
      match r.focusTweet with
      | none => ([], [])
      | some ft => processPhotos env (processPhotos env ([], []) (focusOwnItems ft)) (focusQuoteItems ft)
    processPhotos env st1 (threadItems r)

/-- `tweetMemoryResult?.memory || ''` (line 297). -/
def tweetMemoryOf : Option TweetMemoryResult → String
  | some r => r.memory
  | none => ""

/-- `tweetMemoryResult?.focusTweet?.sender || 'THE USER'` (line 380). -/
def recentChatSender : Option TweetMemoryResult → String
  | some r =>
    match r.focusTweet with
    | some ft => if ft.sender == "" then "THE USER" else ft.sender
    | none => "THE USER"
  | none => "THE USER"

/-- The highlighted focus section of the assembler's text (lines
362-374), empty when no focus record exists. -/
def focusHighlightSection : Option TweetMemoryResult → String
  | none => ""
  | some r =>
    match r.focusTweet with
    | none => ""
    | some ft =>
      "\n## THIS IS THE CURRENT TWEET YOU ARE REPLYING TO. GIVE YOUR FULL FOCUS TO REPLYING TO THIS TWEET.\nSender: "
        ++ (if ft.sender == "" then "Unknown User" else ft.sender)
        ++ "\nTime: " ++ ft.timestamp
        ++ "\nContent: " ++ ft.text ++ "\n"
        ++ (match ft.quoteContext with
            | none => ""
            | some qc =>
              "\nQuote Tweet Context:\n  Sender: "
                ++ (if qc.sender == "" then "Unknown User" else qc.sender)
                ++ "\n  Time: " ++ qc.timestamp
                ++ "\n  Content: " ++ qc.text
                ++ "\n  "
                ++ (if qc.photos.length > 0 then
                      "Images: Contains " ++ toString qc.photos.length ++ " image(s)"
                    else ""))

/-- The closing image note (line 385), present only when at least one
image was encoded. -/
def imagesNote (n : Nat) : String :=
  if n > 0 then
    "\n## IMAGES IN CONVERSATION\nThe following messages contain " ++ toString n
      ++ " images that provide additional context.\n"
  else ""

/-- `assembleTwitterInterface` (lines 285-389). The first parameter
`recentMainTweetsContent` is accepted, as in the source, and never used
by the body. The function always returns a bundle; a failed memory fetch
only empties its sections. -/
def assembleTwitterInterface (env : Env) (fuel : Nat)
    (recentMainTweetsContent : String) (tweetId : String) : TwitterInterface :=
  let tweetMemoryResult := fetchAndFormatTweetMemory env fuel tweetId
  let st := assembleImages env tweetMemoryResult
  { textContent :=
      "\n# TWITTER INTERFACE\nThis section contains your LIVE Twitter interface featuring context you need to reply to the current tweet.\n\n## RECENT CHAT HISTORY BETWEEN YOU AND "
        ++ recentChatSender tweetMemoryResult ++ "\n"
        ++ tweetMemoryOf tweetMemoryResult ++ "\n\n"
        ++ focusHighlightSection tweetMemoryResult ++ "\n\n"
        ++ imagesNote st.2.length ++ "\n"
    imageContents := st.2 }

/-- Specification-side view of the image loops: the `(photoUrl, sender)`
pairs that actually get an encoded entry, in order — a pair is kept when
its URL is new (w.r.t. the processed set) and its fetch succeeds, and the
URL is then marked processed. Used to characterize the deduplication of
`assembleTwitterInterface`. -/
def collectPairs (env : Env) : List String → List (String × String) → List (String × String)
  | _, [] => []
  | processed, item :: rest =>
    if processed.contains item.1 then collectPairs env processed rest
    else
      match env.getImageAsBase64 item.1 with
      | some _ => item :: collectPairs env (processed ++ [item.1]) rest
      | none => collectPairs env processed rest

/-- The encoded entry produced for a kept `(photoUrl, sender)` pair (the
`none` branch is unreachable for pairs kept by `collectPairs`). -/
def entryOf (env : Env) (item : String × String) : ImageContent :=
  match env.getImageAsBase64 item.1 with
  | some d => { sender := item.2, media_type := d.media_type, data := d.data }
  | none => { sender := item.2, media_type := "", data := "" }

/-- Specification-side view of one node's contribution to the
thread-photo list of `fetchAndFormatTweetMemory`: nothing for the focus
record, otherwise the node's own photos then its quote-context photos. -/
def nodePhotoRefs (m : ThreadMessage) : List PhotoRef :=
  if m.isFocusTweet then []
  else
    m.photos.map (fun u => { photoUrl := u, sender := m.sender })
      ++ (match m.quoteContext with
          | some qc => qc.photos.map (fun u => { photoUrl := u, sender := qc.sender })
          | none => [])

/-- A reply chain starting at a tweet whose listed parents all resolve
and whose last listed parent has a parent reference that does NOT
resolve: `ps` is the walk order (immediate parent first). -/
def failedChain (env : Env) : Tweet → List Tweet → Prop
  | t, [] => ∃ pid, t.inReplyToStatusId = some pid ∧ env.getTweet pid = none
  | t, p :: ps => ∃ pid, t.inReplyToStatusId = some pid ∧ env.getTweet pid = some p ∧ failedChain env p ps

/-- A fully resolvable reply chain: `ps` is the walk order (immediate
parent first) and the last parent has no parent reference. -/
def fullChain (env : Env) : Tweet → List Tweet → Prop
  | t, [] => t.inReplyToStatusId = none
  | t, p :: ps => ∃ pid, t.inReplyToStatusId = some pid ∧ env.getTweet pid = some p ∧ fullChain env p ps

/-- A tweet that renders without a quote context and without throwing: no
quoted-status reference and a defined `timeParsed`. -/
def plainOK (t : Tweet) : Prop :=
  t.quotedStatusId = none ∧ t.timeParsed.isSome = true

instance (t : Tweet) : Decidable (plainOK t) := by
  unfold plainOK; infer_instance

/-- The record `getConversationThread` builds for a `plainOK` tweet. -/
def plainMsg (t : Tweet) (focus : Bool) : ThreadMessage :=
  { sender := t.username.getD "Unknown User"
    tweet_id := t.id
    text := t.text.getD ""
    timestamp := dateToISOString (t.timeParsed.getD 0)
    photos := t.photos.getD []
    quoteContext := none
    isFocusTweet := focus }


lemma exceptBind_ok {α β : Type} (a : α) (f : α → Except Unit β) :
    (Except.ok a >>= f : Except Unit β) = f a := rfl

lemma exceptBind_error {α β : Type} (e : Unit) (f : α → Except Unit β) :
    (Except.error e >>= f : Except Unit β) = Except.error () := by
  cases e; rfl

lemma toThreadMessage_plain (env : Env) (t : Tweet) (b : Bool) (h : plainOK t) :
    toThreadMessage env t b = Except.ok (plainMsg t b) := by
  obtain ⟨hq, hts⟩ := h
  obtain ⟨ms, hms⟩ := Option.isSome_iff_exists.mp hts
  simp [toThreadMessage, resolveQuoteContext, hq, hms, toISO, plainMsg, Option.getD,
    exceptBind_ok]

lemma mapNodes_plain (env : Env) (l : List Tweet) (h : ∀ t ∈ l, plainOK t) :
    mapNodes env l = Except.ok (l.map (fun t => plainMsg t false)) := by
  induction l with
  | nil => simp [mapNodes]
  | cons a as ih =>
    have ha := h a (List.mem_cons_self a as)
    have has : ∀ t ∈ as, plainOK t := fun t ht => h t (List.mem_cons_of_mem a ht)
    simp [mapNodes, toThreadMessage_plain env a false ha, ih has, exceptBind_ok]

lemma getConversationThread_plain (env : Env) (fuel : Nat) (fid : String) (t : Tweet)
    (hf : env.getTweet fid = some t) (ht : plainOK t)
    (hps : ∀ p ∈ collectParents env fuel t, plainOK p) :
    getConversationThread env fuel fid =
      (collectParents env fuel t).map (fun p => plainMsg p false) ++ [plainMsg t true] := by
  simp [getConversationThread, hf, threadResult, mapNodes_plain env _ hps,
    toThreadMessage_plain env t true ht, exceptBind_ok]

lemma collectParents_fullChain (env : Env) (t : Tweet) (ps : List Tweet)
    (h : fullChain env t ps) : ∀ fuel, ps.length ≤ fuel →
    collectParents env fuel t = ps.reverse := by
  induction ps generalizing t with
  | nil =>
    intro fuel _
    have h' : t.inReplyToStatusId = none := h
    cases fuel with
    | zero => simp [collectParents]
    | succ f => simp [collectParents, h']
  | cons p ps ih =>
    intro fuel hfuel
    obtain ⟨pid, hr, hp, hchain⟩ := h
    cases fuel with
    | zero => simp at hfuel
    | succ f =>
      have hf : ps.length ≤ f := by simpa using hfuel
      simp [collectParents, hr, hp, ih p hchain f hf]

lemma collectParents_failedChain (env : Env) (t : Tweet) (ps : List Tweet)
    (h : failedChain env t ps) : ∀ fuel, ps.length + 1 ≤ fuel →
    collectParents env fuel t = ps.reverse := by
  induction ps generalizing t with
  | nil =>
    intro fuel hfuel
    obtain ⟨pid, hr, hn⟩ := h
    cases fuel with
    | zero => simp at hfuel
    | succ f => simp [collectParents, hr, hn]
  | cons p ps ih =>
    intro fuel hfuel
    obtain ⟨pid, hr, hp, hchain⟩ := h
    cases fuel with
    | zero => simp at hfuel
    | succ f =>
      have hf : ps.length + 1 ≤ f := by simpa using hfuel
      simp [collectParents, hr, hp, ih p hchain f hf]

lemma toThreadMessage_error (env : Env) (t : Tweet) (b : Bool)
    (h : t.timeParsed = none ∨
      ∃ qid q, t.quotedStatusId = some qid ∧ env.getTweet qid = some q ∧ q.timeParsed = none) :
    toThreadMessage env t b = Except.error () := by
  rcases h with hts | ⟨qid, q, hq, hqt, hqts⟩
  · unfold toThreadMessage
    cases hrq : resolveQuoteContext env t.quotedStatusId with
    | error e => simp [hrq, exceptBind_error]
    | ok qc => simp [hrq, exceptBind_ok, hts, toISO, exceptBind_error]
  · have hrq : resolveQuoteContext env t.quotedStatusId = Except.error () := by
      simp [resolveQuoteContext, hq, hqt, hqts, toISO, exceptBind_error]
    unfold toThreadMessage
    simp [hrq, exceptBind_error]

lemma mapNodes_error (env : Env) (l : List Tweet) (t : Tweet) (ht : t ∈ l)
    (herr : toThreadMessage env t false = Except.error ()) :
    mapNodes env l = Except.error () := by
  induction l with
  | nil => cases ht
  | cons a as ih =>
    rcases List.mem_cons.mp ht with rfl | hmem
    · simp [mapNodes, herr, exceptBind_error]
    · cases hma : toThreadMessage env a false with
      | error e => simp [mapNodes, hma, exceptBind_error]
      | ok m => simp [mapNodes, hma, exceptBind_ok, ih hmem, exceptBind_error]

lemma getConversationThread_error (env : Env) (fuel : Nat) (fid : String) (t : Tweet)
    (hf : env.getTweet fid = some t)
    (herr : threadResult env fuel t = Except.error ()) :
    getConversationThread env fuel fid = [] := by
  simp [getConversationThread, hf, herr]

lemma threadResult_error_focus (env : Env) (fuel : Nat) (t : Tweet)
    (h : toThreadMessage env t true = Except.error ()) :
    threadResult env fuel t = Except.error () := by
  unfold threadResult
  cases hm : mapNodes env (collectParents env fuel t) with
  | error e => simp [hm, exceptBind_error]
  | ok conv => simp [hm, exceptBind_ok, h, exceptBind_error]

lemma threadResult_error_parent (env : Env) (fuel : Nat) (t p : Tweet)
    (hp : p ∈ collectParents env fuel t)
    (herr : toThreadMessage env p false = Except.error ()) :
    threadResult env fuel t = Except.error () := by
  unfold threadResult
  simp [mapNodes_error env _ p hp herr, exceptBind_error]


lemma processPhotos_append (env : Env) (st : List String × List ImageContent)
    (xs ys : List (String × String)) :
    processPhotos env st (xs ++ ys) = processPhotos env (processPhotos env st xs) ys := by
  simp [processPhotos, List.foldl_append]

lemma collectPairs_cons_skip (env : Env) (p : List String) (item : String × String)
    (rest : List (String × String)) (h : item.1 ∈ p) :
    collectPairs env p (item :: rest) = collectPairs env p rest := by
  simp [collectPairs, h]

lemma collectPairs_cons_fail (env : Env) (p : List String) (item : String × String)
    (rest : List (String × String)) (h : item.1 ∉ p)
    (hfetch : env.getImageAsBase64 item.1 = none) :
    collectPairs env p (item :: rest) = collectPairs env p rest := by
  simp [collectPairs, h, hfetch]

lemma collectPairs_cons_keep (env : Env) (p : List String) (item : String × String)
    (rest : List (String × String)) (h : item.1 ∉ p) (d : ImageData)
    (hfetch : env.getImageAsBase64 item.1 = some d) :
    collectPairs env p (item :: rest) = item :: collectPairs env (p ++ [item.1]) rest := by
  simp [collectPairs, h, hfetch]

lemma processPhotos_eq_collectPairs (env : Env) (items : List (String × String)) :
    ∀ p c, processPhotos env (p, c) items =
      (p ++ (collectPairs env p items).map Prod.fst,
       c ++ (collectPairs env p items).map (entryOf env)) := by
  induction items with
  | nil => intro p c; simp [processPhotos, collectPairs]
  | cons item rest ih =>
    intro p c
    by_cases hmem : item.1 ∈ p
    · have h1 : processPhotos env (p, c) (item :: rest) = processPhotos env (p, c) rest := by
        simp [processPhotos, processPhotoStep, hmem]
      rw [h1, collectPairs_cons_skip env p item rest hmem, ih p c]
    · cases hfetch : env.getImageAsBase64 item.1 with
      | none =>
        have h1 : processPhotos env (p, c) (item :: rest) = processPhotos env (p, c) rest := by
          simp [processPhotos, processPhotoStep, hmem, hfetch]
        rw [h1, collectPairs_cons_fail env p item rest hmem hfetch, ih p c]
      | some d =>
        have h1 : processPhotos env (p, c) (item :: rest) =
            processPhotos env
              (p ++ [item.1],
               c ++ [{ sender := item.2, media_type := d.media_type, data := d.data }]) rest := by
          simp [processPhotos, processPhotoStep, hmem, hfetch]
        have he : entryOf env item =
            { sender := item.2, media_type := d.media_type, data := d.data } := by
          simp [entryOf, hfetch]
        rw [h1, collectPairs_cons_keep env p item rest hmem d hfetch, ih]
        simp [he, List.append_assoc]

lemma collectPairs_fst_not_mem (env : Env) (items : List (String × String)) :
    ∀ p u, u ∈ (collectPairs env p items).map Prod.fst → u ∉ p := by
  induction items with
  | nil => intro p u h; simp [collectPairs] at h
  | cons item rest ih =>
    intro p u h
    by_cases hmem : item.1 ∈ p
    · rw [collectPairs_cons_skip env p item rest hmem] at h
      exact ih p u h
    · cases hfetch : env.getImageAsBase64 item.1 with
      | none =>
        rw [collectPairs_cons_fail env p item rest hmem hfetch] at h
        exact ih p u h
      | some d =>
        rw [collectPairs_cons_keep env p item rest hmem d hfetch] at h
        simp only [List.map_cons, List.mem_cons] at h
        rcases h with rfl | h
        · exact hmem
        · have hnp := ih (p ++ [item.1]) u h
          intro hc
          exact hnp (List.mem_append_left _ hc)

lemma collectPairs_fst_nodup (env : Env) (items : List (String × String)) :
    ∀ p, ((collectPairs env p items).map Prod.fst).Nodup := by
  induction items with
  | nil => intro p; simp [collectPairs]
  | cons item rest ih =>
    intro p
    by_cases hmem : item.1 ∈ p
    · rw [collectPairs_cons_skip env p item rest hmem]
      exact ih p
    · cases hfetch : env.getImageAsBase64 item.1 with
      | none =>
        rw [collectPairs_cons_fail env p item rest hmem hfetch]
        exact ih p
      | some d =>
        rw [collectPairs_cons_keep env p item rest hmem d hfetch]
        simp only [List.map_cons, List.nodup_cons]
        refine ⟨fun hm => ?_, ih (p ++ [item.1])⟩
        have := collectPairs_fst_not_mem env rest (p ++ [item.1]) item.1 hm
        exact this (List.mem_append_right _ (List.mem_singleton.mpr rfl))

lemma collectPairs_mem (env : Env) (items : List (String × String)) :
    ∀ p u s, (u, s) ∈ collectPairs env p items →
      (env.getImageAsBase64 u).isSome = true ∧ u ∉ p ∧
        items.find? (fun it => it.1 == u) = some (u, s) := by
  induction items with
  | nil => intro p u s h; simp [collectPairs] at h
  | cons item rest ih =>
    intro p u s h
    by_cases hmem : item.1 ∈ p
    · rw [collectPairs_cons_skip env p item rest hmem] at h
      obtain ⟨hsome, hnp, hfind⟩ := ih p u s h
      refine ⟨hsome, hnp, ?_⟩
      have hne : (item.1 == u) = false := by
        by_cases he : item.1 = u
        · subst he; exact absurd hmem hnp
        · simpa using he
      simp [List.find?_cons, hne, hfind]
    · cases hfetch : env.getImageAsBase64 item.1 with
      | none =>
        rw [collectPairs_cons_fail env p item rest hmem hfetch] at h
        obtain ⟨hsome, hnp, hfind⟩ := ih p u s h
        refine ⟨hsome, hnp, ?_⟩
        have hne : (item.1 == u) = false := by
          by_cases he : item.1 = u
          · subst he; simp [hfetch] at hsome
          · simpa using he
        simp [List.find?_cons, hne, hfind]
      | some d =>
        rw [collectPairs_cons_keep env p item rest hmem d hfetch] at h
        rcases List.mem_cons.mp h with heq | hmem2
        · have h1 : item.1 = u := by rw [← heq]
          have h2 : item.2 = s := by rw [← heq]
          subst h1; subst h2
          refine ⟨by simp [hfetch], hmem, ?_⟩
          simp [List.find?_cons]
        · obtain ⟨hsome, hnp, hfind⟩ := ih (p ++ [item.1]) u s hmem2
          have hne : item.1 ≠ u := by
            intro he
            exact hnp (List.mem_append_right _ (by simp [he]))
          refine ⟨hsome, fun hc => hnp (List.mem_append_left _ hc), ?_⟩
          have hne2 : (item.1 == u) = false := by simpa using hne
          simp [List.find?_cons, hne2, hfind]

lemma assembleImages_some (env : Env) (r : TweetMemoryResult) :
    assembleImages env (some r) = processPhotos env ([], []) (imageItems r) := by
  cases hft : r.focusTweet with
  | none => simp [assembleImages, imageItems, hft, processPhotos_append]
  | some ft => simp [assembleImages, imageItems, hft, List.append_assoc, processPhotos_append]

lemma foldl_photoStep (l : List ThreadMessage) :
    ∀ acc, l.foldl photoStep acc = acc ++ l.flatMap nodePhotoRefs := by
  induction l with
  | nil => intro acc; simp
  | cons m ms ih =>
    intro acc
    have hstep : photoStep acc m = acc ++ nodePhotoRefs m := by
      cases hfoc : m.isFocusTweet with
      | true => simp [photoStep, nodePhotoRefs, hfoc]
      | false =>
        cases hqc : m.quoteContext with
        | none => simp [photoStep, nodePhotoRefs, hfoc, hqc]
        | some qc => simp [photoStep, nodePhotoRefs, hfoc, hqc, List.append_assoc]
    simp [List.foldl_cons, hstep, ih, List.append_assoc]

lemma getLast?_snoc {α : Type} (l : List α) (x : α) : (l ++ [x]).getLast? = some x := by
  cases l with
  | nil => rfl
  | cons b bs =>
    rw [List.getLast?_append_of_ne_nil (b :: bs) (by simp)]
    rfl

/-- **C2 (amended).** The Memory Formatter's split is positional, not
flag-based: the FIRST element of the sequence is always rendered in the
parent section when the sequence is non-empty, and the focus section
holds the LAST element only when the sequence has at least two elements.
For a single-element sequence (a focus message with no parent), the
transcript contains exactly one rendered message — but in the parent
section, with the focus section empty — plus the history section. -/
theorem c2_formatter_sections (tun : Option String) (m f : ThreadMessage)
    (ms : List ThreadMessage) (hist : List ThreadMessage) :
    formatMemory tun [m] hist =
      "Current Tweet Thread:\n\n" ++ ("Parent Tweet:\n" ++ formatMessage tun m ++ "\n")
        ++ "\n\n" ++ historyMemory tun hist
    ∧ focusTweetSection tun [m] = ""
    ∧ focusTweetSection tun (m :: (ms ++ [f])) =
        "The Tweet You Are Replying To:\n" ++ formatMessage tun f ++ "\n"
    ∧ parentTweetSection tun (m :: (ms ++ [f])) =
        "Parent Tweet:\n" ++ formatMessage tun m ++ "\n" := by
  refine ⟨?_, ?_, ?_, ?_⟩
  · simp [formatMemory, parentTweetSection, repliesAboveSection, focusTweetSection,
      String.append_assoc]
  · rfl
  · simp [focusTweetSection, getLast?_snoc]
  · rfl

/-- A concrete single-element thread message (a focus message with no
parent and no quote), as built by the Thread Walker. -/
def msgSolo : ThreadMessage :=
  { sender := "alice"
    tweet_id := some "1"
    text := "hi"
    timestamp := "t1"
    photos := []
    quoteContext := none
    isFocusTweet := true }

/-- **C2 (counterexample).** For the single-element ancestor sequence
`[msgSolo]` the rendered transcript has NO focus section (it is empty),
and it DOES have a parent section — holding the focus message itself.
This refutes the claim that the focus section always holds the last
element and that a parent section exists only when more than one element
exists. -/
theorem c2_counterexample :
    focusTweetSection none [msgSolo] = ""
    ∧ parentTweetSection none [msgSolo] = "Parent Tweet:\n[t1] alice: hi\n" := by
  exact ⟨rfl, by decide⟩

/-- **C1 (amended).** When the focus message cannot be resolved (not
found, or missing required `username`/`text` fields), the inner
`fetchAndFormatTweetMemory` does return the distinguished `null`
("no data") result — but the top-level entry point
`assembleTwitterInterface` swallows it and still returns a bundle: the
image list is empty, and `textContent` is exactly the fixed skeleton
text (header, empty history under the generic "THE USER" title, empty
focus section, no image note) — not an empty/"no data" value. -/
theorem c1_skeleton_on_focus_failure (env : Env) (fuel : Nat) (c fid : String)
    (h : env.getTweet fid = none ∨
      ∃ t, env.getTweet fid = some t ∧ (falsyOptStr t.username || falsyOptStr t.text) = true) :
    fetchAndFormatTweetMemory env fuel fid = none
    ∧ (assembleTwitterInterface env fuel c fid).imageContents = []
    ∧ (assembleTwitterInterface env fuel c fid).textContent =
      "\n# TWITTER INTERFACE\nThis section contains your LIVE Twitter interface featuring context you need to reply to the current tweet.\n\n## RECENT CHAT HISTORY BETWEEN YOU AND THE USER\n\n\n\n\n\n" := by
  have hnone : fetchAndFormatTweetMemory env fuel fid = none := by
    rcases h with hn | ⟨t, ht, hfalsy⟩
    · simp [fetchAndFormatTweetMemory, hn]
    · simp [fetchAndFormatTweetMemory, ht, hfalsy]
  refine ⟨hnone, ?_, ?_⟩
  · simp [assembleTwitterInterface, hnone, assembleImages]
  · simp [assembleTwitterInterface, hnone, assembleImages, tweetMemoryOf, recentChatSender,
      focusHighlightSection, imagesNote]

/-- An environment in which every external fetch fails. -/
def envNoData : Env :=
  { getTweet := fun _ => none
    getConversationWithUser := fun _ => []
    getImageAsBase64 := fun _ => none
    twitterUsername := none }

/-- **C1 (counterexample).** With every fetch failing (the focus message
is not found), the top-level entry point does NOT return an
empty/"no data" bundle: its `textContent` is non-empty (a skeleton with
header sections), refuting the claim that the entry point returns the
distinguished empty result rather than a partially-filled bundle. -/
theorem c1_counterexample :
    (assembleTwitterInterface envNoData 1 "" "x").textContent ≠ "" := by
  decide

/-- **C1 (witness for the amended claim).** The amended theorem applied
to the concrete all-fetches-fail environment. -/
theorem c1_witness :
    fetchAndFormatTweetMemory envNoData 1 "y" = none
    ∧ (assembleTwitterInterface envNoData 1 "" "y").imageContents = []
    ∧ (assembleTwitterInterface envNoData 1 "" "y").textContent =
      "\n# TWITTER INTERFACE\nThis section contains your LIVE Twitter interface featuring context you need to reply to the current tweet.\n\n## RECENT CHAT HISTORY BETWEEN YOU AND THE USER\n\n\n\n\n\n" :=
  c1_skeleton_on_focus_failure envNoData 1 "" "y" (Or.inl rfl)

/-- **C5 (confirmed).** If every listed ancestor resolves but the last
listed ancestor's own parent fetch fails, the Thread Walker truncates at
that point, keeping all successfully resolved ancestors (oldest first)
plus the focus message; the result is an ordinary list — the break is
silent, not an error surfaced to the caller. -/
theorem c5_truncation_on_failed_parent (env : Env) (fuel : Nat) (fid : String)
    (t : Tweet) (ps : List Tweet)
    (hf : env.getTweet fid = some t) (hchain : failedChain env t ps)
    (hfuel : ps.length + 1 ≤ fuel) (ht : plainOK t) (hps : ∀ p ∈ ps, plainOK p) :
    getConversationThread env fuel fid =
      ps.reverse.map (fun p => plainMsg p false) ++ [plainMsg t true] := by
  have hcp := collectParents_failedChain env t ps hchain fuel hfuel
  have hps' : ∀ p ∈ collectParents env fuel t, plainOK p := by
    rw [hcp]
    intro p hp
    exact hps p (List.mem_reverse.mp hp)
  rw [getConversationThread_plain env fuel fid t hf ht hps', hcp]

/-- **C6 (confirmed).** For a fully resolvable chain of N parents, the
Thread Walker returns exactly N+1 nodes: the parents oldest-first (walk
order reversed, which is chronological under the platform assumption
that every parent is strictly older than its reply, stated as the
`Chain'` hypothesis), the focus node last, and exactly one node flagged
as focus. -/
theorem c6_full_chain_shape (env : Env) (fuel : Nat) (fid : String)
    (t : Tweet) (ps : List Tweet)
    (hf : env.getTweet fid = some t) (hchain : fullChain env t ps)
    (hfuel : ps.length ≤ fuel) (ht : plainOK t) (hps : ∀ p ∈ ps, plainOK p)
    (hchron : List.Chain' (fun a b => a.timeParsed.getD 0 < b.timeParsed.getD 0)
      (ps.reverse ++ [t])) :
    getConversationThread env fuel fid =
      ps.reverse.map (fun p => plainMsg p false) ++ [plainMsg t true]
    ∧ List.Chain' (fun a b => a.timeParsed.getD 0 < b.timeParsed.getD 0) (ps.reverse ++ [t])
    ∧ (getConversationThread env fuel fid).length = ps.length + 1
    ∧ (getConversationThread env fuel fid).getLast? = some (plainMsg t true)
    ∧ (getConversationThread env fuel fid).countP (fun m => m.isFocusTweet) = 1 := by
  have hcp := collectParents_fullChain env t ps hchain fuel hfuel
  have hps' : ∀ p ∈ collectParents env fuel t, plainOK p := by
    rw [hcp]
    intro p hp
    exact hps p (List.mem_reverse.mp hp)
  have heq := getConversationThread_plain env fuel fid t hf ht hps'
  rw [hcp] at heq
  refine ⟨heq, hchron, ?_, ?_, ?_⟩
  · rw [heq]; simp
  · rw [heq]; exact getLast?_snoc _ _
  · rw [heq]
    simp [List.countP_append, List.countP_map, plainMsg, Function.comp, List.countP_cons]

/-- Concrete focus tweet for the truncation witness: replies to `p1`. -/
def tW5 : Tweet :=
  { id := some "f", username := some "carol", text := some "hi"
    timeParsed := some 30, inReplyToStatusId := some "p1"
    quotedStatusId := none, photos := none }

/-- Concrete ancestor for the truncation witness: replies to the
unresolvable `p0`. -/
def pW5 : Tweet :=
  { id := some "p1", username := some "bob", text := some "mid"
    timeParsed := some 20, inReplyToStatusId := some "p0"
    quotedStatusId := none, photos := none }

/-- Environment for the truncation witness: `f` and `p1` resolve, `p0`
(the parent of `p1`) does not. -/
def envW5 : Env :=
  { getTweet := fun id =>
      if id == "f" then some tW5 else if id == "p1" then some pW5 else none
    getConversationWithUser := fun _ => []
    getImageAsBase64 := fun _ => none
    twitterUsername := none }

/-- **C5 (witness).** The truncation theorem applied to a concrete chain
whose second parent fetch fails: the resolved ancestor and the focus are
kept. -/
theorem c5_witness :
    getConversationThread envW5 3 "f" =
      [pW5].reverse.map (fun p => plainMsg p false) ++ [plainMsg tW5 true] :=
  c5_truncation_on_failed_parent envW5 3 "f" tW5 [pW5] (by decide)
    ⟨"p1", rfl, by decide, "p0", rfl, by decide⟩ (by decide) (by decide)
    (by intro p hp; simp at hp; subst hp; decide)

/-- Concrete focus tweet for the full-chain witness: replies to `q1`. -/
def tW6 : Tweet :=
  { id := some "g", username := some "dana", text := some "reply"
    timeParsed := some 50, inReplyToStatusId := some "q1"
    quotedStatusId := none, photos := none }

/-- Concrete root tweet for the full-chain witness: no parent. -/
def pW6 : Tweet :=
  { id := some "q1", username := some "erin", text := some "root"
    timeParsed := some 40, inReplyToStatusId := none
    quotedStatusId := none, photos := none }

/-- Environment for the full-chain witness: the whole chain resolves. -/
def envW6 : Env :=
  { getTweet := fun id =>
      if id == "g" then some tW6 else if id == "q1" then some pW6 else none
    getConversationWithUser := fun _ => []
    getImageAsBase64 := fun _ => none
    twitterUsername := none }

/-- **C6 (witness).** The full-chain theorem applied to a concrete
one-parent chain: two nodes, root first, focus last, one focus flag. -/
theorem c6_witness :
    getConversationThread envW6 3 "g" =
      [pW6].reverse.map (fun p => plainMsg p false) ++ [plainMsg tW6 true]
    ∧ List.Chain' (fun a b => a.timeParsed.getD 0 < b.timeParsed.getD 0) ([pW6].reverse ++ [tW6])
    ∧ (getConversationThread envW6 3 "g").length = [pW6].length + 1
    ∧ (getConversationThread envW6 3 "g").getLast? = some (plainMsg tW6 true)
    ∧ (getConversationThread envW6 3 "g").countP (fun m => m.isFocusTweet) = 1 :=
  c6_full_chain_shape envW6 3 "g" tW6 [pW6] (by decide)
    ⟨"q1", rfl, by decide, rfl⟩ (by decide) (by decide)
    (by intro p hp; simp at hp; subst hp; decide)
    (by simp [List.chain'_cons, pW6, tW6])

/-- **C9 (confirmed).** If any tweet resolved during the thread walk —
the focus, a collected ancestor, or a quoted tweet of either — has an
undefined `timeParsed`, the `toISOString` conversion throws, the `catch`
of `getConversationThread` fires, and the function returns the empty
sequence, discarding every successfully resolved node rather than
keeping partial results. -/
theorem c9_invalid_timestamp_empties_thread (env : Env) (fuel : Nat) (fid : String)
    (t : Tweet) (hf : env.getTweet fid = some t) :
    (t.timeParsed = none → getConversationThread env fuel fid = [])
    ∧ (∀ p ∈ collectParents env fuel t, p.timeParsed = none →
        getConversationThread env fuel fid = [])
    ∧ (∀ qid q, t.quotedStatusId = some qid → env.getTweet qid = some q →
        q.timeParsed = none → getConversationThread env fuel fid = [])
    ∧ (∀ p ∈ collectParents env fuel t, ∀ qid q, p.quotedStatusId = some qid →
        env.getTweet qid = some q → q.timeParsed = none →
        getConversationThread env fuel fid = []) := by
  refine ⟨?_, ?_, ?_, ?_⟩
  · intro hts
    exact getConversationThread_error env fuel fid t hf
      (threadResult_error_focus env fuel t
        (toThreadMessage_error env t true (Or.inl hts)))
  · intro p hp hts
    exact getConversationThread_error env fuel fid t hf
      (threadResult_error_parent env fuel t p hp
        (toThreadMessage_error env p false (Or.inl hts)))
  · intro qid q hq hqt hqts
    exact getConversationThread_error env fuel fid t hf
      (threadResult_error_focus env fuel t
        (toThreadMessage_error env t true (Or.inr ⟨qid, q, hq, hqt, hqts⟩)))
  · intro p hp qid q hq hqt hqts
    exact getConversationThread_error env fuel fid t hf
      (threadResult_error_parent env fuel t p hp
        (toThreadMessage_error env p false (Or.inr ⟨qid, q, hq, hqt, hqts⟩)))

/-- Concrete focus tweet with an undefined `timeParsed` but a resolvable
parent. -/
def tW9 : Tweet :=
  { id := some "h", username := some "fred", text := some "oops"
    timeParsed := none, inReplyToStatusId := some "r1"
    quotedStatusId := none, photos := none }

/-- A perfectly resolvable parent for the invalid-timestamp witness. -/
def pW9 : Tweet :=
  { id := some "r1", username := some "gina", text := some "fine"
    timeParsed := some 10, inReplyToStatusId := none
    quotedStatusId := none, photos := none }

/-- Environment for the invalid-timestamp witness. -/
def envW9 : Env :=
  { getTweet := fun id =>
      if id == "h" then some tW9 else if id == "r1" then some pW9 else none
    getConversationWithUser := fun _ => []
    getImageAsBase64 := fun _ => none
    twitterUsername := none }

/-- **C9 (witness).** Even though the parent chain of the focus resolves
fully, the focus tweet's undefined `timeParsed` makes the whole walk
return the empty sequence. -/
theorem c9_witness : getConversationThread envW9 3 "h" = [] :=
  (c9_invalid_timestamp_empties_thread envW9 3 "h" tW9 (by decide)).1 rfl

/-- **C10 (confirmed).** `fetchAndFormatTweetMemory` returns `null` not
only when the focus message cannot be fetched, but also whenever the
fetched focus message has a missing `username`, or a missing or empty
`text` body (JavaScript falsiness of `''` in `!tweet?.text`): a
resolvable focus message with empty text is treated as "no data". -/
theorem c10_null_on_missing_fields (env : Env) (fuel : Nat) (fid : String) :
    (env.getTweet fid = none → fetchAndFormatTweetMemory env fuel fid = none)
    ∧ (∀ t, env.getTweet fid = some t →
        (t.username = none ∨ t.text = none ∨ t.text = some "") →
        fetchAndFormatTweetMemory env fuel fid = none) := by
  constructor
  · intro hn
    simp [fetchAndFormatTweetMemory, hn]
  · intro t ht hcase
    have hfalsy : (falsyOptStr t.username || falsyOptStr t.text) = true := by
      rcases hcase with h1 | h2 | h3
      · simp [falsyOptStr, h1]
      · simp [falsyOptStr, h2]
      · simp [falsyOptStr, h3]
    simp [fetchAndFormatTweetMemory, ht, hfalsy]

/-- Concrete focus tweet that resolves but carries an empty text body. -/
def tW10 : Tweet :=
  { id := some "k", username := some "hana", text := some ""
    timeParsed := some 5, inReplyToStatusId := none
    quotedStatusId := none, photos := none }

/-- Environment for the empty-text witness. -/
def envW10 : Env :=
  { getTweet := fun id => if id == "k" then some tW10 else none
    getConversationWithUser := fun _ => []
    getImageAsBase64 := fun _ => none
    twitterUsername := none }

/-- **C10 (witness).** A resolvable focus tweet with empty text makes
`fetchAndFormatTweetMemory` return the distinguished `null`. -/
theorem c10_witness : fetchAndFormatTweetMemory envW10 1 "k" = none :=
  (c10_null_on_missing_fields envW10 1 "k").2 tW10 (by decide) (Or.inr (Or.inr rfl))

/-- **C7 (confirmed).** Quote resolution has depth exactly one and
degrades to "absent" on failure: resolving a node with no quoted
reference yields no quote context and no error; an unresolvable quoted
message yields no quote context and no error; the result of resolving a
quoted reference depends ONLY on the directly quoted message (any two
environments that agree on that one fetch produce the same quote
context — so the resolved quote's own `quotedStatusId` is never
followed); and the resolved context is exactly the quoted message's
sender, text, timestamp and photos, with no nested quote data. -/
theorem c7_quote_resolution_depth_one (env : Env) (qid : String) :
    resolveQuoteContext env none = Except.ok none
    ∧ (env.getTweet qid = none → resolveQuoteContext env (some qid) = Except.ok none)
    ∧ (∀ env2 : Env, env2.getTweet qid = env.getTweet qid →
        resolveQuoteContext env2 (some qid) = resolveQuoteContext env (some qid))
    ∧ (∀ qt ms, env.getTweet qid = some qt → qt.timeParsed = some ms →
        resolveQuoteContext env (some qid) =
          Except.ok (some
            { sender := qt.username.getD "Unknown User"
              text := qt.text.getD ""
              timestamp := dateToISOString ms
              photos := qt.photos.getD [] })) := by
  refine ⟨rfl, ?_, ?_, ?_⟩
  · intro hn
    simp [resolveQuoteContext, hn]
  · intro env2 hagree
    simp only [resolveQuoteContext, hagree]
  · intro qt ms hq hts
    simp [resolveQuoteContext, hq, hts, toISO, exceptBind_ok]

/-- A quoted tweet that itself quotes a further tweet (`deep`). -/
def qW7 : Tweet :=
  { id := some "q", username := some "iris", text := some "quoted"
    timeParsed := some 7, inReplyToStatusId := none
    quotedStatusId := some "deep", photos := some ["qphoto"] }

/-- Environment in which the quote-of-quote `deep` RESOLVES. -/
def envW7a : Env :=
  { getTweet := fun id =>
      if id == "q" then some qW7
      else if id == "deep" then
        some { id := some "deep", username := some "jo", text := some "deepest"
               timeParsed := some 1, inReplyToStatusId := none
               quotedStatusId := none, photos := none }
      else none
    getConversationWithUser := fun _ => []
    getImageAsBase64 := fun _ => none
    twitterUsername := none }

/-- Environment identical on `q` but in which `deep` does NOT resolve. -/
def envW7b : Env :=
  { getTweet := fun id => if id == "q" then some qW7 else none
    getConversationWithUser := fun _ => []
    getImageAsBase64 := fun _ => none
    twitterUsername := none }

/-- **C7 (witness).** At the concrete quoted tweet `qW7` (which itself
quotes `deep`): resolution yields exactly the depth-one context, the
result is identical whether or not `deep` resolves, and an unresolvable
quoted reference yields an absent context without error. -/
theorem c7_witness :
    resolveQuoteContext envW7a (some "q") =
      Except.ok (some
        { sender := "iris", text := "quoted"
          timestamp := dateToISOString 7, photos := ["qphoto"] })
    ∧ resolveQuoteContext envW7b (some "q") = resolveQuoteContext envW7a (some "q")
    ∧ resolveQuoteContext envW7a (some "missing") = Except.ok none :=
  ⟨(c7_quote_resolution_depth_one envW7a "q").2.2.2 qW7 7 (by decide) rfl,
   (c7_quote_resolution_depth_one envW7a "q").2.2.1 envW7b (by decide),
   (c7_quote_resolution_depth_one envW7a "missing").2.1 (by decide)⟩

/-- **C8 (confirmed).** The entry point is a pure function of the
backing data: two invocations with the same focus identifier against
backing fetches that return the same results (environments that agree
pointwise on every fetch and on the configured bot identity) produce
byte-identical bundles — identical `textContent` and identical
`imageContents` in identical order. -/
theorem c8_idempotent (env1 env2 : Env) (fuel : Nat) (recent tweetId : String)
    (hTweet : ∀ id, env1.getTweet id = env2.getTweet id)
    (hConv : ∀ u, env1.getConversationWithUser u = env2.getConversationWithUser u)
    (hImg : ∀ u, env1.getImageAsBase64 u = env2.getImageAsBase64 u)
    (hUser : env1.twitterUsername = env2.twitterUsername) :
    (assembleTwitterInterface env1 fuel recent tweetId).textContent =
      (assembleTwitterInterface env2 fuel recent tweetId).textContent
    ∧ (assembleTwitterInterface env1 fuel recent tweetId).imageContents =
      (assembleTwitterInterface env2 fuel recent tweetId).imageContents := by
  have henv : env1 = env2 := by
    cases env1
    cases env2
    simp only [Env.mk.injEq]
    exact ⟨funext hTweet, funext hConv, funext hImg, hUser⟩
  subst henv
  exact ⟨rfl, rfl⟩

/-- **C8 (witness).** Two invocations against the same (hence
pointwise-agreeing) backing data yield byte-identical bundles. -/
theorem c8_witness :
    (assembleTwitterInterface envW6 3 "" "g").textContent =
      (assembleTwitterInterface envW6 3 "" "g").textContent
    ∧ (assembleTwitterInterface envW6 3 "" "g").imageContents =
      (assembleTwitterInterface envW6 3 "" "g").imageContents :=
  c8_idempotent envW6 envW6 3 "" "g" (fun _ => rfl) (fun _ => rfl) (fun _ => rfl) rfl

/-- **C4 (amended).** The Image Collector (the `allPhotos` reduce of
`fetchAndFormatTweetMemory`) walks the thread in order and, for each
NON-focus node, appends that node's own images and then that same node's
quote-context images, with NO deduplication at this stage: its output is
exactly the per-node concatenation, so a locator seen before is NOT
skipped here (duplicates are only filtered later by the Interface
Assembler), and a node's quote images precede the next node's own
images rather than all own-images coming before all quote-images. -/
theorem c4_collector_is_flatmap (env : Env) (fuel : Nat) (fid : String)
    (r : TweetMemoryResult) (h : fetchAndFormatTweetMemory env fuel fid = some r) :
    r.photos = (getConversationThread env fuel fid).flatMap nodePhotoRefs := by
  cases hg : env.getTweet fid with
  | none => simp [fetchAndFormatTweetMemory, hg] at h
  | some tweet =>
    by_cases hfalsy : (falsyOptStr tweet.username || falsyOptStr tweet.text) = true
    · simp [fetchAndFormatTweetMemory, hg, hfalsy] at h
    · have hfalsy2 : (falsyOptStr tweet.username || falsyOptStr tweet.text) = false := by
        simpa using hfalsy
      simp only [fetchAndFormatTweetMemory, hg, hfalsy2, Bool.false_eq_true, if_false,
        Option.some.injEq] at h
      rw [← h]
      simp [foldl_photoStep]

/-- Root ancestor for the collector counterexample: own photo `a` and a
quote whose photos are `a` (duplicate) and `q`. -/
def p2C4 : Tweet :=
  { id := some "p2", username := some "eve", text := some "root"
    timeParsed := some 1, inReplyToStatusId := none
    quotedStatusId := some "qz", photos := some ["a"] }

/-- Quoted tweet of the root ancestor. -/
def qzC4 : Tweet :=
  { id := some "qz", username := some "quoter", text := some "qt"
    timeParsed := some 0, inReplyToStatusId := none
    quotedStatusId := none, photos := some ["a", "q"] }

/-- Middle ancestor for the collector counterexample: own photo `b`. -/
def p1C4 : Tweet :=
  { id := some "p1", username := some "dan", text := some "mid"
    timeParsed := some 2, inReplyToStatusId := some "p2"
    quotedStatusId := none, photos := some ["b"] }

/-- Focus tweet for the collector counterexample. -/
def fC4 : Tweet :=
  { id := some "f4", username := some "carl", text := some "hi"
    timeParsed := some 3, inReplyToStatusId := some "p1"
    quotedStatusId := none, photos := none }

/-- Environment for the collector counterexample. -/
def envC4 : Env :=
  { getTweet := fun id =>
      if id == "f4" then some fC4
      else if id == "p1" then some p1C4
      else if id == "p2" then some p2C4
      else if id == "qz" then some qzC4
      else none
    getConversationWithUser := fun _ => []
    getImageAsBase64 := fun _ => none
    twitterUsername := none }

set_option maxRecDepth 8192 in
/-- **C4 (counterexample).** The collector's output for a thread whose
root ancestor owns photo `a` and quotes a tweet with photos `a, q`, and
whose middle ancestor owns photo `b`: locator `a` appears TWICE (the
second occurrence is not skipped, so the output is not duplicate-free),
and the quote image `q` of the root precedes the own image `b` of the
later node (so own-images do not all come before quote-images). -/
theorem c4_counterexample :
    (fetchAndFormatTweetMemory envC4 3 "f4").map (fun r => r.photos) =
      some [⟨"a", "eve"⟩, ⟨"a", "quoter"⟩, ⟨"q", "quoter"⟩, ⟨"b", "dan"⟩] := by
  decide

/-- The concrete memory result of the collector counterexample run. -/
def rC4 : TweetMemoryResult :=
  (fetchAndFormatTweetMemory envC4 3 "f4").getD
    { memory := "", username := "", text := "", photos := [], focusTweet := none }

set_option maxRecDepth 8192 in
/-- **C4 (witness for the amended claim).** The amended characterization
applied to the concrete counterexample environment. -/
theorem c4_witness :
    rC4.photos = (getConversationThread envC4 3 "f4").flatMap nodePhotoRefs :=
  c4_collector_is_flatmap envC4 3 "f4" rC4 (by decide)

/-- **C3 (amended).** The final encoded image list deduplicates by exact
locator with FIRST-occurrence-wins attribution over the assembler's
processing order — the focus tweet's own images first, then the focus
quote images, then the non-focus thread images oldest-first. Hence every
locator whose fetch succeeds gets exactly one entry (the kept pair list
has no duplicate locators), attributed to the sender of its first
occurrence in that order: among non-focus nodes this is the more
ancestral sender, but a locator shared with the focus node is attributed
to the focus sender, not the more ancestral one. -/
theorem c3_dedup_first_occurrence (env : Env) (fuel : Nat) (c fid : String)
    (r : TweetMemoryResult) (h : fetchAndFormatTweetMemory env fuel fid = some r) :
    (assembleTwitterInterface env fuel c fid).imageContents =
      (collectPairs env [] (imageItems r)).map (entryOf env)
    ∧ ((collectPairs env [] (imageItems r)).map Prod.fst).Nodup
    ∧ ∀ u s, (u, s) ∈ collectPairs env [] (imageItems r) →
        (env.getImageAsBase64 u).isSome = true ∧
        (imageItems r).find? (fun it => it.1 == u) = some (u, s) := by
  refine ⟨?_, collectPairs_fst_nodup env (imageItems r) [], ?_⟩
  · simp [assembleTwitterInterface, h, assembleImages_some,
      processPhotos_eq_collectPairs]
  · intro u s hm
    obtain ⟨hsome, _, hfind⟩ := collectPairs_mem env (imageItems r) [] u s hm
    exact ⟨hsome, hfind⟩

/-- Focus tweet for the attribution counterexample: sender `bob`, own
photo `u`. -/
def fC3 : Tweet :=
  { id := some "f3", username := some "bob", text := some "hi"
    timeParsed := some 2, inReplyToStatusId := some "p"
    quotedStatusId := none, photos := some ["u"] }

/-- Ancestor tweet for the attribution counterexample: sender `alice`,
the SAME photo locator `u`. -/
def pC3 : Tweet :=
  { id := some "p", username := some "alice", text := some "yo"
    timeParsed := some 1, inReplyToStatusId := none
    quotedStatusId := none, photos := some ["u"] }

/-- Environment for the attribution counterexample: both nodes resolve
and locator `u` encodes successfully. -/
def envC3 : Env :=
  { getTweet := fun id =>
      if id == "f3" then some fC3 else if id == "p" then some pC3 else none
    getConversationWithUser := fun _ => []
    getImageAsBase64 := fun u =>
      if u == "u" then some { media_type := "image/png", data := "D" } else none
    twitterUsername := none }

set_option maxRecDepth 8192 in
/-- **C3 (counterexample).** The ancestor (sender `alice`) and the focus
(sender `bob`) reference the same locator `u`; the final image list has
exactly one entry for `u` — but it is attributed to `bob`, the focus
sender, because the assembler processes focus images first. This refutes
the claim that the entry is attributed to the earlier (more ancestral)
sender. The second and third conjuncts exhibit that both nodes do
reference `u`. -/
theorem c3_counterexample :
    (assembleTwitterInterface envC3 2 "" "f3").imageContents =
      [{ sender := "bob", media_type := "image/png", data := "D" }]
    ∧ (fetchAndFormatTweetMemory envC3 2 "f3").map (fun r => r.photos) =
        some [⟨"u", "alice"⟩]
    ∧ ((fetchAndFormatTweetMemory envC3 2 "f3").bind (fun r => r.focusTweet)).map
        (fun ft => ft.photos) = some ["u"] := by
  refine ⟨by decide, by decide, by decide⟩

/-- The concrete memory result of the attribution counterexample run. -/
def rC3 : TweetMemoryResult :=
  (fetchAndFormatTweetMemory envC3 2 "f3").getD
    { memory := "", username := "", text := "", photos := [], focusTweet := none }

set_option maxRecDepth 8192 in
/-- **C3 (witness for the amended claim).** The amended theorem applied
to the concrete attribution environment, with one instance of the
first-occurrence property: the kept pair for locator `u` is
`("u", "bob")`, the FIRST occurrence in processing order (the focus). -/
theorem c3_witness :
    (assembleTwitterInterface envC3 2 "" "f3").imageContents =
      (collectPairs envC3 [] (imageItems rC3)).map (entryOf envC3)
    ∧ ((collectPairs envC3 [] (imageItems rC3)).map Prod.fst).Nodup
    ∧ (envC3.getImageAsBase64 "u").isSome = true
    ∧ (imageItems rC3).find? (fun it => it.1 == "u") = some ("u", "bob") :=
  ⟨(c3_dedup_first_occurrence envC3 2 "" "f3" rC3 (by decide)).1,
   (c3_dedup_first_occurrence envC3 2 "" "f3" rC3 (by decide)).2.1,
   ((c3_dedup_first_occurrence envC3 2 "" "f3" rC3 (by decide)).2.2 "u" "bob" (by decide)).1,
   ((c3_dedup_first_occurrence envC3 2 "" "f3" rC3 (by decide)).2.2 "u" "bob" (by decide)).2⟩
